import Mathlib

/-!
Verification of the watch-collection service (`main.py`).

The program is embedded shallowly: every string transformation works on the
string's underlying character list, machine behaviour that Python performs
(`str.strip`, `str.lower`, the regular expressions of `generate_slug` and
`generate_safe_filename`) is translated character by character, and the
BeautifulSoup parse of the embedded document is modelled at its observable
boundary, an optional carousel container holding a list of items, each with an
optional `img` node carrying optional `alt` and `src` attributes. Regular
expression classes `\w` and `\s` and `str.lower` are modelled at their ASCII
meaning, which covers every string the program contains.
-/

namespace Watches

/-- Python `\s` (ASCII): space, tab, newline, vertical tab, form feed,
carriage return. -/
def pySpace (c : Char) : Bool :=
  decide (c.toNat = 32 ∨ (9 ≤ c.toNat ∧ c.toNat ≤ 13))

/-- Python `\w` (ASCII): digits, uppercase and lowercase letters,
underscore. -/
def isWordChar (c : Char) : Bool :=
  decide ((48 ≤ c.toNat ∧ c.toNat ≤ 57) ∨ (65 ≤ c.toNat ∧ c.toNat ≤ 90) ∨
    (97 ≤ c.toNat ∧ c.toNat ≤ 122) ∨ c.toNat = 95)

/-- The characters kept by `re.sub(r'[^\w\s-]', '', _)`. -/
def keepChar (c : Char) : Bool :=
  isWordChar c || pySpace c || decide (c = '-')

/-- The character class `[\s-]` whose runs are collapsed to a hyphen. -/
def isSep (c : Char) : Bool :=
  pySpace c || decide (c = '-')

/-- Python `str.lower` at its ASCII meaning: map `A`–`Z` to `a`–`z`. -/
def pyLowerChar (c : Char) : Char :=
  if 65 ≤ c.toNat ∧ c.toNat ≤ 90 then Char.ofNat (c.toNat + 32) else c

/-- Drop the trailing run of characters satisfying `p`. -/
def dropTrailingWhile (p : Char → Bool) (l : List Char) : List Char :=
  (l.reverse.dropWhile p).reverse

/-- Python `str.strip()` on a character list: remove leading and trailing
whitespace. -/
def pyStripList (l : List Char) : List Char :=
  dropTrailingWhile pySpace (l.dropWhile pySpace)

/-- Python `str.strip('-')` on a character list. -/
def stripDash (l : List Char) : List Char :=
  dropTrailingWhile (fun c => c = '-') (l.dropWhile (fun c => c = '-'))

/-- `re.sub(r'[\s-]+', '-', _)`: replace every maximal run of whitespace or
hyphens by a single hyphen. -/
def collapseSep : List Char → List Char
  | [] => []
  | [c] => if isSep c then ['-'] else [c]
  | c :: d :: cs =>
    if isSep c && isSep d then collapseSep (d :: cs)
    else (if isSep c then '-' else c) :: collapseSep (d :: cs)

/-- The body of `generate_slug` on a character list:
`re.sub(r'[^\w\s-]', '', name.lower()).strip()`, then
`re.sub(r'[\s-]+', '-', _)`, then `.strip('-')`. -/
def slugList (l : List Char) : List Char :=
  stripDash (collapseSep (pyStripList ((l.map pyLowerChar).filter keepChar)))

/-- `generate_slug` from `main.py`: URL-friendly slug of a product name. -/
def generate_slug (s : String) : String :=
  if s.data = [] then "" else String.mk (slugList s.data)

/-- Modelled from the spec (§4.1): lowercase; remove every character that is
not alphanumeric, underscore, whitespace, or hyphen; collapse any run of
whitespace or hyphen characters into a single hyphen; strip leading and
trailing hyphens. Stated without the source's intermediate whitespace strip,
exactly as the spec words it. -/
def slugSpecList (l : List Char) : List Char :=
  stripDash (collapseSep ((l.map pyLowerChar).filter keepChar))

/-- Modelled from the spec (§4.1): the slug generator as the spec describes
it. -/
def generate_slug_spec (s : String) : String :=
  String.mk (slugSpecList s.data)

/-- No two adjacent characters are both separators. Outputs of `collapseSep`
satisfy this. -/
def noAdjSep : List Char → Bool
  | c :: d :: cs => !(isSep c && isSep d) && noAdjSep (d :: cs)
  | _ => true

/-- Python `str.strip()` on a `String`. -/
def pyStripStr (s : String) : String :=
  String.mk (pyStripList s.data)

/-- Python `str.lower()` on a `String`, at its ASCII meaning. -/
def pyLowerStr (s : String) : String :=
  String.mk (s.data.map pyLowerChar)

/-- `generate_safe_filename` from `main.py`:
`re.sub(r'[^\w\s-]', '', name).replace(' ', '_').lower()` composed into
`data/<safe_name>_<category>.json`. The `os.makedirs` side effect touches
only the filesystem and is not part of the returned value. -/
def generate_safe_filename (name category : String) : String :=
  "data/" ++
    String.mk ((((name.data.filter keepChar).map
      (fun c => if c = ' ' then '_' else c)).map pyLowerChar)) ++
    "_" ++ category ++ ".json"

/-- Modelled from the spec (§4.3): strip every character from `name` that is
not alphanumeric, underscore, whitespace, or hyphen; replace remaining
whitespace with underscores; lowercase the result; compose
`data/<processed-name>_<category>.json`. -/
def safe_filename_spec (name category : String) : String :=
  "data/" ++
    String.mk ((((name.data.filter keepChar).map
      (fun c => if pySpace c then '_' else c)).map pyLowerChar)) ++
    "_" ++ category ++ ".json"

/-- The spec's filename derivation amended at its one divergence from the
source: only the space character (U+0020) is replaced by an underscore, as
`str.replace(' ', '_')` does; other whitespace characters pass through. -/
def safe_filename_amended (name category : String) : String :=
  "data/" ++
    String.mk (((name.data.filter keepChar).map
      (fun c => pyLowerChar (if c = ' ' then '_' else c)))) ++
    "_" ++ category ++ ".json"

/-- The `Product` pydantic model: `slug` is optional with default `None`. -/
structure Product where
  name : String
  image_url : String
  link : String
  slug : Option String
deriving DecidableEq

/-- An `img` node as the extraction reads it: optional `alt` and `src`
attributes. -/
structure Img where
  alt : Option String
  src : Option String
deriving DecidableEq

/-- One repeated carousel child (`div.inline-block`): `item.find('img')`
yields at most one image node. -/
structure Item where
  img : Option Img
deriving DecidableEq

/-- The document at the boundary the extraction observes: `soup.find` either
fails to locate the carousel container (`none`) or yields the container's
list of `div.inline-block` items in document order. -/
abbrev Doc := Option (List Item)

/-- `startswith('http')` on a character list. -/
def listHasHttp : List Char → Bool
  | 'h' :: 't' :: 't' :: 'p' :: _ => true
  | _ => false

/-- `str.startswith('http')`. -/
def strHasHttp (s : String) : Bool :=
  listHasHttp s.data

/-- Scheme detection for `urljoinBase`: after the leading letter, letters,
digits, `+`, `-` or `.` may follow, ending at `:`. -/
def schemeTail : List Char → Bool
  | [] => false
  | ':' :: _ => true
  | c :: cs =>
    (decide ((65 ≤ c.toNat ∧ c.toNat ≤ 90) ∨ (97 ≤ c.toNat ∧ c.toNat ≤ 122) ∨
      (48 ≤ c.toNat ∧ c.toNat ≤ 57) ∨ c = '+' ∨ c = '-' ∨ c = '.')) && schemeTail cs

/-- Whether the reference begins with an RFC 3986 URL scheme: a letter
followed by letters, digits, `+`, `-` or `.` up to a `:`. -/
def hasScheme : List Char → Bool
  | [] => false
  | c :: cs =>
    decide ((65 ≤ c.toNat ∧ c.toNat ≤ 90) ∨ (97 ≤ c.toNat ∧ c.toNat ≤ 122)) && schemeTail cs

/-- `urljoin('https://www.shopar.ai', u)` for the inputs the source reaches:
`u` nonempty and not beginning with `http`. A scheme-relative reference
keeps the base scheme; a reference carrying its own scheme is returned
unchanged (that scheme differs from the base scheme `https`, which the
`http` test already caught, so `urljoin` leaves the reference alone); an
absolute path is appended to the origin; a relative path is appended below
the origin's empty path. -/
def urljoinBase (u : String) : String :=
  if u.data.take 2 = ['/', '/'] then "https:" ++ u
  else if hasScheme u.data then u
  else if u.data.take 1 = ['/'] then "https://www.shopar.ai" ++ u
  else "https://www.shopar.ai/" ++ u

/-- One pass of the body of the `for i, item in enumerate(watch_items)` loop
of `extract_watch_data`: `some p` when the loop appends `p`, `none` when the
iteration hits `continue` or the skip branch. -/
def extractItem (links : List String) (i : Nat) (item : Item) : Option Product :=
  match item.img with
  | none => none
  | some im =>
    if i < links.length then
      let name := pyStripStr (im.alt.getD "Unknown Watch")
      let url0 := pyStripStr (im.src.getD "")
      let url := if url0 ≠ "" ∧ strHasHttp url0 = false then urljoinBase url0 else url0
      if url = "" then none
      else some { name := name, image_url := url,
                  link := pyStripStr (links.getD i ""), slug := some (generate_slug name) }
    else none

/-- The `for` loop of `extract_watch_data`: walk the items with their
positional index, appending each successfully built record. -/
def extractLoop (links : List String) : Nat → List Item → List Product
  | _, [] => []
  | i, item :: rest =>
    match extractItem links i item with
    | some p => p :: extractLoop links (i + 1) rest
    | none => extractLoop links (i + 1) rest

/-- `extract_watch_data` from `main.py` over the observed document: a missing
carousel container yields `[]`; otherwise the items are walked in document
order. The logged warnings and the `except` arm (unreachable here: every
operation of the body is total) do not affect the returned value. -/
def extract_watch_data (doc : Doc) (links : List String) : List Product :=
  match doc with
  | none => []
  | some items => extractLoop links 0 items

/-- List each element with its positional index, starting at `i`, as
`enumerate` does. -/
def withIdx (i : Nat) : List Item → List (Nat × Item)
  | [] => []
  | item :: rest => (i, item) :: withIdx (i + 1) rest

/-- Modelled from the spec: resolution of an image source against the fixed
base origin as §4.2 step 4 describes it. Sources that carry an
absolute-URL scheme (which the source detects as a `http` text prefix) are
kept; the empty source stays empty, which keeps the step's subsequent
skip-on-empty clause reachable, exactly as the spec states it. -/
def specResolve (src : String) : String :=
  if src = "" then ""
  else if strHasHttp src then src
  else urljoinBase src

/-- Modelled from the spec (§4.2 steps 4 and 5): the record an in-range item
contributes. The label defaults to `"Unknown Watch"` and is trimmed, the
trimmed source is resolved, an empty resolved URL skips the item, items out
of range of the links or without an image are skipped, and otherwise the
`Product` carries the label, the resolved URL, the trimmed positional link
and the generated slug. -/
def specRecord (links : List String) (i : Nat) (item : Item) : Option Product :=
  match item.img with
  | none => none
  | some im =>
    if i < links.length then
      let label := pyStripStr (im.alt.getD "Unknown Watch")
      let url := specResolve (pyStripStr (im.src.getD ""))
      if url = "" then none
      else some { name := label, image_url := url,
                  link := pyStripStr (links.getD i ""), slug := some (generate_slug label) }
    else none

/-- The eight carousel items of the embedded `html_content`, in document
order, transcribed from the `img` tags of the single
`div.flex.space-x-4.min-h-[60px]` container. -/
def sampleItems : List Item :=
  [ ⟨some ⟨some "Hublot MP-10 Tourbillon",
      some "https://dj5e08oeu5ym4.cloudfront.net/thumb/c2a36185-19be-48dc-80ca-a40cd1e930ce.jpg"⟩⟩,
    ⟨some ⟨some "Hublot Spirit Of Big Bang Full Magic Gold",
      some "https://dj5e08oeu5ym4.cloudfront.net/thumb/34b97066-cf29-4941-9d0c-581084f5981e.png"⟩⟩,
    ⟨some ⟨some "Movado Alta Super Sub Sea Automatic",
      some "https://dj5e08oeu5ym4.cloudfront.net/thumb/165c3844-6301-4398-b8fd-7b15f0032e16.jpg"⟩⟩,
    ⟨some ⟨some "Swatch Obsidian Ink",
      some "https://dj5e08oeu5ym4.cloudfront.net/thumb/12df7df7-fecd-412e-bea5-02e92c312408.webp"⟩⟩,
    ⟨some ⟨some "Swatch Caramellissima",
      some "https://dj5e08oeu5ym4.cloudfront.net/thumb/eb5e18b9-400c-4c14-b752-86d2be88a482.avif"⟩⟩,
    ⟨some ⟨some "Swatch Random Ghost",
      some "https://dj5e08oeu5ym4.cloudfront.net/thumb/d670348a-0aee-4916-b011-a8943b1d7496.jpg"⟩⟩,
    ⟨some ⟨some "Swatch Up In Smoke",
      some "https://dj5e08oeu5ym4.cloudfront.net/thumb/425b727b-c788-46b3-adb2-4cdfb9a39c2c.png"⟩⟩,
    ⟨some ⟨some "Swatch Cobalt Lagoon",
      some "https://dj5e08oeu5ym4.cloudfront.net/thumb/cd3708cc-75fc-4f43-a8b3-011b061dba36.webp"⟩⟩ ]

/-- The embedded sample document as the extraction observes it. -/
def sampleDoc : Doc := some sampleItems

/-- The `watch_links` constant of `main.py`. -/
def watch_links : List String :=
  [ "https://www.shopar.ai/collection/watches?product=66618cf59d3fb1edda45d3ba&mode=3d",
    "https://www.shopar.ai/collection/watches?product=65f48bb59ae86ec2a67a435d&mode=3d",
    "https://www.shopar.ai/collection/watches?product=657218fa3c333cddc7d2341c&mode=3d",
    "https://www.shopar.ai/collection/watches?product=66ba01a114de953c80003cfc&mode=3d",
    "https://www.shopar.ai/collection/watches?product=66ba06f314de953c8000719c&mode=3d",
    "https://www.shopar.ai/collection/watches?product=67129023c904b2a2777efe9d&mode=3d",
    "https://www.shopar.ai/collection/watches?product=6712989ac904b2a2777f39ed&mode=3d",
    "https://www.shopar.ai/collection/watches?product=66ba071914de953c8000722f&mode=3d" ]

/-- A handler outcome: a product payload or an `HTTPException` with status
code and detail. -/
inductive Resp where
  | ok : Product → Resp
  | err : Nat → String → Resp
deriving DecidableEq

/-- The body of `get_watch_by_name` after extraction: the empty-result
guard, then the first-match loop comparing `watch['name'].lower().strip()`
against `query.name.strip().lower()`, then the 404. -/
def get_watch_by_name_core (watches : List Product) (qname : String) : Resp :=
  if watches = [] then .err 500 "Failed to process watch collection"
  else
    match watches.find?
        (fun w => pyStripStr (pyLowerStr w.name) = pyLowerStr (pyStripStr qname)) with
    | some w => .ok w
    | none => .err 404 ("Watch '" ++ qname ++ "' not found")

/-- The `POST /watches/by-name` handler: re-run extraction on the embedded
document and links, then match. -/
def get_watch_by_name (qname : String) : Resp :=
  get_watch_by_name_core (extract_watch_data sampleDoc watch_links) qname

/-- The claim-side name comparison: case-insensitive, whitespace-trimmed
equality. -/
def nameMatches (a b : String) : Bool :=
  pyLowerStr (pyStripStr a) = pyLowerStr (pyStripStr b)

/-- The JSON values the persistence writer produces: strings, arrays and
objects with ordered fields. -/
inductive Json where
  | str : String → Json
  | arr : List Json → Json
  | obj : List (String × Json) → Json

/-- `Product.model_dump(exclude_none=True)` followed by `json.dump`: the
three required fields in declaration order, and `slug` only when present. -/
def productDump (p : Product) : List (String × Json) :=
  [("name", .str p.name), ("image_url", .str p.image_url), ("link", .str p.link)] ++
    (match p.slug with
     | none => []
     | some s => [("slug", .str s)])

/-- Read a string field back from a parsed JSON object. -/
def lookupStr (fields : List (String × Json)) (k : String) : Option String :=
  match fields.lookup k with
  | some (.str s) => some s
  | _ => none

/-- Re-parsing a written product file: `json.load` hands the object to
`Product(**d)`, which requires the three mandatory fields and defaults a
missing `slug` to `None`. -/
def productParse (fields : List (String × Json)) : Option Product :=
  match lookupStr fields "name", lookupStr fields "image_url", lookupStr fields "link" with
  | some n, some i, some l => some ⟨n, i, l, lookupStr fields "slug"⟩
  | _, _, _ => none

/-- `ProductDetails.model_dump(exclude_none=True)`: the collection file's
single `products` array. -/
def detailsDump (ps : List Product) : List (String × Json) :=
  [("products", .arr (ps.map (fun p => .obj (productDump p))))]

/-- Parse every element of the `products` array, failing if any element
fails. -/
def parseAll : List Json → Option (List Product)
  | [] => some []
  | j :: js =>
    match j with
    | .obj f =>
      match productParse f, parseAll js with
      | some p, some ps => some (p :: ps)
      | _, _ => none
    | _ => none

/-- Re-parsing the collection file back into its product list. -/
def detailsParse (fields : List (String × Json)) : Option (List Product) :=
  match fields.lookup "products" with
  | some (.arr js) => parseAll js
  | _ => none

/-! ### Character-level lemmas -/

theorem toNat_ofNat_small (n : Nat) (h : n < 55296) : (Char.ofNat n).toNat = n := by
  have hv : n.isValidChar := Or.inl h
  simp [Char.ofNat, hv, Char.ofNatAux, Char.toNat, UInt32.toNat]

theorem pyLowerChar_toNat (c : Char) :
    (pyLowerChar c).toNat = if 65 ≤ c.toNat ∧ c.toNat ≤ 90 then c.toNat + 32 else c.toNat := by
  unfold pyLowerChar
  split
  · next h => exact toNat_ofNat_small _ (by omega)
  · rfl

theorem pySpace_pyLowerChar (c : Char) : pySpace (pyLowerChar c) = pySpace c := by
  have h := pyLowerChar_toNat c
  unfold pySpace
  by_cases hc : 65 ≤ c.toNat ∧ c.toNat ≤ 90
  · rw [if_pos hc] at h
    rw [h]
    have : ¬((c.toNat + 32) = 32 ∨ (9 ≤ c.toNat + 32 ∧ c.toNat + 32 ≤ 13)) := by omega
    have : ¬(c.toNat = 32 ∨ (9 ≤ c.toNat ∧ c.toNat ≤ 13)) := by omega
    simp_all
  · rw [if_neg hc] at h
    rw [h]

theorem pyLowerChar_eq_self {c : Char} (h : ¬(65 ≤ c.toNat ∧ c.toNat ≤ 90)) :
    pyLowerChar c = c := by
  unfold pyLowerChar
  exact if_neg h

theorem pyLowerChar_idem (c : Char) : pyLowerChar (pyLowerChar c) = pyLowerChar c := by
  have h := pyLowerChar_toNat c
  by_cases hc : 65 ≤ c.toNat ∧ c.toNat ≤ 90
  · rw [if_pos hc] at h
    exact pyLowerChar_eq_self (by omega)
  · rw [if_neg hc] at h
    exact pyLowerChar_eq_self (by omega)

theorem keepChar_not_sep_word {c : Char} (hk : keepChar c = true) (hs : isSep c = false) :
    isWordChar c = true := by
  unfold keepChar at hk
  unfold isSep at hs
  simp only [Bool.or_eq_true, Bool.or_eq_false_iff] at hk hs
  obtain ⟨hs1, hs2⟩ := hs
  rcases hk with (h | h) | h
  · exact h
  · simp [h] at hs1
  · simp [h] at hs2

theorem isSep_false_not_space {c : Char} (hs : isSep c = false) : pySpace c = false := by
  unfold isSep at hs
  simp only [Bool.or_eq_false_iff] at hs
  exact hs.1

/-! ### Generic list lemmas -/

theorem dropWhile_eq_self_of {p : Char → Bool} {l : List Char}
    (h : ∀ c ∈ l, p c = false) : l.dropWhile p = l := by
  cases l with
  | nil => rfl
  | cons c t => simp [List.dropWhile_cons, h c (List.mem_cons_self c t)]

theorem dropWhile_dropWhile (p : Char → Bool) (l : List Char) :
    (l.dropWhile p).dropWhile p = l.dropWhile p := by
  induction l with
  | nil => rfl
  | cons c t ih =>
    by_cases h : p c = true
    · simp [List.dropWhile_cons, h, ih]
    · simp only [Bool.not_eq_true] at h
      simp [List.dropWhile_cons, h]

theorem mem_dropTrailingWhile {p : Char → Bool} {l : List Char} {c : Char}
    (h : c ∈ dropTrailingWhile p l) : c ∈ l := by
  unfold dropTrailingWhile at h
  rw [List.mem_reverse] at h
  have := (List.dropWhile_sublist p).subset h
  rwa [List.mem_reverse] at this

theorem dropTrailingWhile_eq_self_of {p : Char → Bool} {l : List Char}
    (h : ∀ c ∈ l, p c = false) : dropTrailingWhile p l = l := by
  unfold dropTrailingWhile
  rw [dropWhile_eq_self_of (fun c hc => h c (List.mem_reverse.mp hc)), List.reverse_reverse]

theorem dropTrailingWhile_append_exists (p : Char → Bool) (l : List Char) :
    ∃ t, l = dropTrailingWhile p l ++ t := by
  refine ⟨(l.reverse.takeWhile p).reverse, ?_⟩
  unfold dropTrailingWhile
  rw [← List.reverse_append, List.takeWhile_append_dropWhile, List.reverse_reverse]

theorem dropWhile_fix_head {p : Char → Bool} {c : Char} {x : List Char}
    (h : x.dropWhile p = c :: x) : False := by
  have hlen := (@List.dropWhile_sublist Char x p).length_le
  rw [h] at hlen
  simp at hlen

theorem dropWhile_cons_fix {p : Char → Bool} {c : Char} {x : List Char}
    (h : (c :: x).dropWhile p = c :: x) : p c = false := by
  by_contra hb
  simp only [Bool.not_eq_false] at hb
  rw [List.dropWhile_cons, if_pos hb] at h
  exact dropWhile_fix_head h

theorem dropTrailingWhile_dropTrailingWhile (p : Char → Bool) (l : List Char) :
    dropTrailingWhile p (dropTrailingWhile p l) = dropTrailingWhile p l := by
  unfold dropTrailingWhile
  rw [List.reverse_reverse, dropWhile_dropWhile]

theorem stripDash_idem (l : List Char) : stripDash (stripDash l) = stripDash l := by
  unfold stripDash
  set dash : Char → Bool := fun c => c = '-' with hdash
  set a : List Char := l.dropWhile dash with ha
  set b : List Char := dropTrailingWhile dash a with hb
  have hb2 : dropTrailingWhile dash b = b := by
    rw [hb, dropTrailingWhile_dropTrailingWhile]
  have hb1 : b.dropWhile dash = b := by
    obtain ⟨t, ht⟩ := dropTrailingWhile_append_exists dash a
    cases hbc : b with
    | nil => rfl
    | cons c b' =>
      have hac : a = c :: (b' ++ t) := by rw [ht, ← hb, hbc]; rfl
      have hfix : a.dropWhile dash = a := by rw [ha, dropWhile_dropWhile]
      have hpc : dash c = false := by
        rw [hac] at hfix
        exact dropWhile_cons_fix hfix
      simp [List.dropWhile_cons, hpc]
  rw [hb1, hb2]

/-! ### `collapseSep` structure -/

theorem collapseSep_cons_not_sep {c : Char} (h : isSep c = false) (cs : List Char) :
    collapseSep (c :: cs) = c :: collapseSep cs := by
  cases cs with
  | nil => simp [collapseSep, h]
  | cons d cs' => simp [collapseSep, h]

theorem collapseSep_cons_sep_sep {c d : Char} (hc : isSep c = true) (hd : isSep d = true)
    (cs : List Char) : collapseSep (c :: d :: cs) = collapseSep (d :: cs) := by
  simp [collapseSep, hc, hd]

theorem collapseSep_cons_sep_not {c d : Char} (hc : isSep c = true) (hd : isSep d = false)
    (cs : List Char) : collapseSep (c :: d :: cs) = '-' :: collapseSep (d :: cs) := by
  simp [collapseSep, hc, hd]

theorem mem_collapseSep {c : Char} :
    ∀ {l : List Char}, c ∈ collapseSep l → c = '-' ∨ (c ∈ l ∧ isSep c = false)
  | [], h => by simp [collapseSep] at h
  | [d], h => by
    by_cases hd : isSep d = true
    · simp [collapseSep, hd] at h
      exact Or.inl h
    · simp only [Bool.not_eq_true] at hd
      simp [collapseSep, hd] at h
      subst h
      exact Or.inr ⟨List.mem_singleton.mpr rfl, hd⟩
  | d :: e :: cs, h => by
    by_cases hd : isSep d = true
    · by_cases he : isSep e = true
      · rw [collapseSep_cons_sep_sep hd he] at h
        rcases mem_collapseSep h with h' | ⟨hm, hs⟩
        · exact Or.inl h'
        · exact Or.inr ⟨List.mem_cons_of_mem d hm, hs⟩
      · simp only [Bool.not_eq_true] at he
        rw [collapseSep_cons_sep_not hd he] at h
        rcases List.mem_cons.mp h with h' | h'
        · exact Or.inl h'
        · rcases mem_collapseSep h' with h'' | ⟨hm, hs⟩
          · exact Or.inl h''
          · exact Or.inr ⟨List.mem_cons_of_mem d hm, hs⟩
    · simp only [Bool.not_eq_true] at hd
      rw [collapseSep_cons_not_sep hd] at h
      rcases List.mem_cons.mp h with h' | h'
      · subst h'
        exact Or.inr ⟨List.mem_cons_self c _, hd⟩
      · rcases mem_collapseSep h' with h'' | ⟨hm, hs⟩
        · exact Or.inl h''
        · exact Or.inr ⟨List.mem_cons_of_mem d hm, hs⟩

theorem noAdjSep_tail {c : Char} {l : List Char} (h : noAdjSep (c :: l) = true) :
    noAdjSep l = true := by
  cases l with
  | nil => rfl
  | cons d t =>
    unfold noAdjSep at h
    exact (Bool.and_eq_true_iff.mp h).2

theorem noAdjSep_cons_of_not_sep {c : Char} {w : List Char} (hc : isSep c = false)
    (hw : noAdjSep w = true) : noAdjSep (c :: w) = true := by
  cases w with
  | nil => rfl
  | cons e w' =>
    unfold noAdjSep
    simp [hc, hw]

theorem noAdjSep_collapseSep : ∀ l : List Char, noAdjSep (collapseSep l) = true
  | [] => rfl
  | [c] => by
    cases hc : isSep c <;> simp [collapseSep, hc, noAdjSep]
  | c :: d :: cs => by
    by_cases hc : isSep c = true
    · by_cases hd : isSep d = true
      · rw [collapseSep_cons_sep_sep hc hd]
        exact noAdjSep_collapseSep (d :: cs)
      · simp only [Bool.not_eq_true] at hd
        rw [collapseSep_cons_sep_not hc hd, collapseSep_cons_not_sep hd]
        unfold noAdjSep
        have := noAdjSep_collapseSep (d :: cs)
        rw [collapseSep_cons_not_sep hd] at this
        simp [hd, this]
    · simp only [Bool.not_eq_true] at hc
      rw [collapseSep_cons_not_sep hc]
      exact noAdjSep_cons_of_not_sep hc (noAdjSep_collapseSep (d :: cs))

theorem collapseSep_eq_self :
    ∀ {l : List Char}, noAdjSep l = true → (∀ c ∈ l, isSep c = true → c = '-') →
      collapseSep l = l
  | [], _, _ => rfl
  | [c], _, h2 => by
    cases hc : isSep c
    · simp [collapseSep, hc]
    · simp [collapseSep, hc, h2 c (List.mem_singleton.mpr rfl) hc]
  | c :: d :: cs, h1, h2 => by
    have hpair : isSep c = true → isSep d = false := by
      unfold noAdjSep at h1
      have h' := (Bool.and_eq_true_iff.mp h1).1
      intro hcs
      simp [hcs] at h'
      exact h'
    have htail : noAdjSep (d :: cs) = true := noAdjSep_tail h1
    have h2' : ∀ x ∈ d :: cs, isSep x = true → x = '-' :=
      fun x hx => h2 x (List.mem_cons_of_mem c hx)
    have hrec := collapseSep_eq_self htail h2'
    cases hc : isSep c
    · rw [collapseSep_cons_not_sep hc, hrec]
    · have hd : isSep d = false := hpair hc
      rw [collapseSep_cons_sep_not hc hd, hrec, h2 c (List.mem_cons_self c _) hc]

theorem noAdjSep_dropWhile (p : Char → Bool) :
    ∀ {l : List Char}, noAdjSep l = true → noAdjSep (l.dropWhile p) = true := by
  intro l
  induction l with
  | nil => intro _; rfl
  | cons c t ih =>
    intro h
    by_cases hp : p c = true
    · rw [List.dropWhile_cons, if_pos hp]
      exact ih (noAdjSep_tail h)
    · simp only [Bool.not_eq_true] at hp
      rw [List.dropWhile_cons, if_neg (by simp [hp])]
      exact h

theorem noAdjSep_append_left :
    ∀ {l₁ : List Char}, ∀ l₂, noAdjSep (l₁ ++ l₂) = true → noAdjSep l₁ = true
  | [], _, _ => rfl
  | [c], _, _ => rfl
  | c :: d :: cs, l₂, h => by
    have h' : noAdjSep (c :: d :: (cs ++ l₂)) = true := h
    unfold noAdjSep at h'
    obtain ⟨hpair, htail⟩ := Bool.and_eq_true_iff.mp h'
    have := @noAdjSep_append_left (d :: cs) l₂ htail
    unfold noAdjSep
    simp only [Bool.and_eq_true_iff]
    exact ⟨hpair, this⟩

theorem noAdjSep_dropTrailingWhile (p : Char → Bool) {l : List Char}
    (h : noAdjSep l = true) : noAdjSep (dropTrailingWhile p l) = true := by
  obtain ⟨t, ht⟩ := dropTrailingWhile_append_exists p l
  rw [ht] at h
  exact noAdjSep_append_left t h

/-! ### Interplay of `stripDash`, `collapseSep` and the whitespace strip -/

theorem pySpace_isSep {c : Char} (h : pySpace c = true) : isSep c = true := by
  unfold isSep
  simp [h]

theorem stripDash_cons_dash (w : List Char) : stripDash ('-' :: w) = stripDash w := by
  unfold stripDash
  rw [List.dropWhile_cons]
  simp

theorem dropTrailingWhile_append_pos {p : Char → Bool} {a : Char} (ha : p a = true)
    (x : List Char) : dropTrailingWhile p (x ++ [a]) = dropTrailingWhile p x := by
  unfold dropTrailingWhile
  rw [List.reverse_append]
  simp [List.dropWhile_cons, ha]

theorem dropTrailingWhile_append_neg {p : Char → Bool} {a : Char} (ha : p a = false)
    (x : List Char) : dropTrailingWhile p (x ++ [a]) = x ++ [a] := by
  unfold dropTrailingWhile
  rw [List.reverse_append]
  simp [List.dropWhile_cons, ha]

theorem stripDash_append_dash (w : List Char) : stripDash (w ++ ['-']) = stripDash w := by
  unfold stripDash
  rw [List.dropWhile_append]
  by_cases h : (w.dropWhile (fun c => c = '-')).isEmpty = true
  · rw [if_pos h]
    rw [List.isEmpty_iff] at h
    rw [h]
    simp [List.dropWhile_cons]
  · rw [if_neg h]
    exact dropTrailingWhile_append_pos (by simp) _

theorem stripDash_collapseSep_cons_sep {c : Char} (hc : isSep c = true) (xs : List Char) :
    stripDash (collapseSep (c :: xs)) = stripDash (collapseSep xs) := by
  cases xs with
  | nil =>
    simp [collapseSep, hc]
    rfl
  | cons d cs =>
    cases hd : isSep d
    · rw [collapseSep_cons_sep_not hc hd, stripDash_cons_dash]
    · rw [collapseSep_cons_sep_sep hc hd]

theorem collapseSep_append_sep {c : Char} (hc : isSep c = true) :
    ∀ xs : List Char,
      collapseSep (xs ++ [c]) = collapseSep xs ∨
        collapseSep (xs ++ [c]) = collapseSep xs ++ ['-']
  | [] => by
    simp [collapseSep, hc]
  | [d] => by
    cases hd : isSep d
    · right
      rw [show [d] ++ [c] = d :: [c] from rfl, collapseSep_cons_not_sep hd]
      simp [collapseSep, hc, hd]
    · left
      rw [show [d] ++ [c] = d :: c :: [] from rfl, collapseSep_cons_sep_sep hd hc]
      simp [collapseSep, hc, hd]
  | d :: e :: cs => by
    have hrec := collapseSep_append_sep hc (e :: cs)
    rw [List.cons_append] at hrec
    have hshape : (d :: e :: cs) ++ [c] = d :: e :: (cs ++ [c]) := rfl
    rw [hshape]
    by_cases hd : isSep d = true
    · by_cases he : isSep e = true
      · rw [collapseSep_cons_sep_sep hd he, collapseSep_cons_sep_sep hd he]
        exact hrec
      · simp only [Bool.not_eq_true] at he
        rw [collapseSep_cons_sep_not hd he, collapseSep_cons_sep_not hd he]
        rcases hrec with h | h
        · left; rw [h]
        · right; rw [h]; rfl
    · simp only [Bool.not_eq_true] at hd
      rw [collapseSep_cons_not_sep hd, collapseSep_cons_not_sep hd]
      rcases hrec with h | h
      · left; rw [h]
      · right; rw [h]; rfl

theorem stripDash_collapseSep_append_sep {c : Char} (hc : isSep c = true) (xs : List Char) :
    stripDash (collapseSep (xs ++ [c])) = stripDash (collapseSep xs) := by
  rcases collapseSep_append_sep hc xs with h | h
  · rw [h]
  · rw [h, stripDash_append_dash]

theorem stripDash_collapseSep_dropWhile (x : List Char) :
    stripDash (collapseSep (x.dropWhile pySpace)) = stripDash (collapseSep x) := by
  induction x with
  | nil => rfl
  | cons c t ih =>
    cases hp : pySpace c
    · rw [List.dropWhile_cons, if_neg (by simp [hp])]
    · rw [List.dropWhile_cons, if_pos (by simp [hp]), ih,
        stripDash_collapseSep_cons_sep (pySpace_isSep hp)]

theorem stripDash_collapseSep_dropTrailing (x : List Char) :
    stripDash (collapseSep (dropTrailingWhile pySpace x)) = stripDash (collapseSep x) := by
  induction x using List.reverseRecOn with
  | nil => rfl
  | append_singleton xs a ih =>
    cases hp : pySpace a
    · rw [dropTrailingWhile_append_neg hp]
    · rw [dropTrailingWhile_append_pos hp, ih,
        stripDash_collapseSep_append_sep (pySpace_isSep hp)]

theorem slugList_eq_slugSpecList (l : List Char) : slugList l = slugSpecList l := by
  unfold slugList slugSpecList pyStripList
  rw [stripDash_collapseSep_dropTrailing, stripDash_collapseSep_dropWhile]

/-! ### Idempotence of the slug pipeline -/

theorem map_eq_self_of {f : Char → Char} :
    ∀ {l : List Char}, (∀ c ∈ l, f c = c) → l.map f = l
  | [], _ => rfl
  | c :: t, h => by
    rw [List.map_cons, h c (List.mem_cons_self c t),
      map_eq_self_of (fun x hx => h x (List.mem_cons_of_mem c hx))]

theorem mem_stripDash {c : Char} {w : List Char} (h : c ∈ stripDash w) : c ∈ w := by
  unfold stripDash at h
  exact (List.dropWhile_sublist _).subset (mem_dropTrailingWhile h)

theorem mem_pyStripList {c : Char} {w : List Char} (h : c ∈ pyStripList w) : c ∈ w := by
  unfold pyStripList at h
  exact (List.dropWhile_sublist _).subset (mem_dropTrailingWhile h)

theorem mem_slugList {c : Char} {l : List Char} (h : c ∈ slugList l) :
    c = '-' ∨ (keepChar c = true ∧ isSep c = false ∧ pyLowerChar c = c) := by
  unfold slugList at h
  rcases mem_collapseSep (mem_stripDash h) with hd | ⟨hm, hs⟩
  · exact Or.inl hd
  · right
    have h2 := mem_pyStripList hm
    rw [List.mem_filter] at h2
    obtain ⟨h3, hk⟩ := h2
    rw [List.mem_map] at h3
    obtain ⟨c₀, _, hc₀⟩ := h3
    refine ⟨hk, hs, ?_⟩
    rw [← hc₀, pyLowerChar_idem]

theorem slugList_idem (l : List Char) : slugList (slugList l) = slugList l := by
  set r := slugList l with hr
  have hmem : ∀ c ∈ r, c = '-' ∨ (keepChar c = true ∧ isSep c = false ∧ pyLowerChar c = c) :=
    fun c hc => mem_slugList hc
  have hlow : r.map pyLowerChar = r := by
    apply map_eq_self_of
    intro c hc
    rcases hmem c hc with h | ⟨_, _, h⟩
    · rw [h]; decide
    · exact h
  have hkeep : r.filter keepChar = r := by
    apply List.filter_eq_self.mpr
    intro c hc
    rcases hmem c hc with h | ⟨h, _, _⟩
    · rw [h]; decide
    · exact h
  have hnoadj : noAdjSep r = true := by
    rw [hr]
    unfold slugList stripDash
    exact noAdjSep_dropTrailingWhile _ (noAdjSep_dropWhile _ (noAdjSep_collapseSep _))
  have hsep : ∀ c ∈ r, isSep c = true → c = '-' := by
    intro c hc hs
    rcases hmem c hc with h | ⟨_, h', _⟩
    · exact h
    · rw [hs] at h'; cases h'
  have hcol : collapseSep r = r := collapseSep_eq_self hnoadj hsep
  have hstrip : stripDash r = r := by
    rw [hr]
    unfold slugList
    exact stripDash_idem _
  calc slugList r = slugSpecList r := slugList_eq_slugSpecList r
    _ = stripDash (collapseSep ((r.map pyLowerChar).filter keepChar)) := rfl
    _ = r := by rw [hlow, hkeep, hcol, hstrip]

theorem data_mk (l : List Char) : (String.mk l).data = l := rfl

theorem generate_slug_idem_str (s : String) :
    generate_slug (generate_slug s) = generate_slug s := by
  unfold generate_slug
  by_cases h : s.data = []
  · rw [if_pos h]
    simp
  · rw [if_neg h]
    by_cases h2 : slugList s.data = []
    · rw [data_mk, if_pos h2, h2]
    · rw [data_mk, if_neg h2, data_mk, slugList_idem]

/-! ### Extraction lemmas -/

theorem resolve_eq (u : String) :
    (if u ≠ "" ∧ strHasHttp u = false then urljoinBase u else u) =
      (if u = "" then "" else if strHasHttp u = true then u else urljoinBase u) := by
  by_cases h0 : u = ""
  · rw [if_neg (by simp [h0]), if_pos h0, h0]
  · rw [if_neg h0]
    by_cases hh : strHasHttp u = true
    · rw [if_neg (by simp [hh]), if_pos hh]
    · simp only [Bool.not_eq_true] at hh
      rw [if_pos ⟨h0, hh⟩, if_neg (by simp [hh])]

theorem extractItem_eq_specRecord (links : List String) (i : Nat) (item : Item) :
    extractItem links i item = specRecord links i item := by
  unfold extractItem specRecord specResolve
  cases item.img with
  | none => rfl
  | some im =>
    dsimp only
    rw [resolve_eq (pyStripStr (im.src.getD ""))]

theorem extractLoop_eq_filterMap (links : List String) :
    ∀ (items : List Item) (i : Nat),
      extractLoop links i items =
        (withIdx i items).filterMap (fun x => specRecord links x.1 x.2)
  | [], _ => rfl
  | item :: rest, i => by
    rw [show withIdx i (item :: rest) = (i, item) :: withIdx (i + 1) rest from rfl,
      List.filterMap_cons]
    unfold extractLoop
    rw [extractItem_eq_specRecord]
    cases specRecord links i item with
    | none => exact extractLoop_eq_filterMap links rest (i + 1)
    | some p => rw [extractLoop_eq_filterMap links rest (i + 1)]

theorem extractItem_none_of_ge {links : List String} {i : Nat}
    (h : links.length ≤ i) (item : Item) : extractItem links i item = none := by
  unfold extractItem
  cases item.img with
  | none => rfl
  | some im =>
    dsimp only
    rw [if_neg (show ¬i < links.length by omega)]

theorem extractLoop_nil_of_ge {links : List String} :
    ∀ {i : Nat}, links.length ≤ i → ∀ items, extractLoop links i items = []
  | _, _, [] => rfl
  | i, h, item :: rest => by
    unfold extractLoop
    rw [extractItem_none_of_ge h]
    exact extractLoop_nil_of_ge (by omega) rest

theorem extractLoop_take (links : List String) :
    ∀ (items : List Item) (i : Nat),
      extractLoop links i items = extractLoop links i (items.take (links.length - i))
  | [], i => by rw [List.take_nil]
  | item :: rest, i => by
    by_cases hi : i < links.length
    · have : links.length - i = (links.length - (i + 1)) + 1 := by omega
      rw [this, List.take_succ_cons]
      unfold extractLoop
      cases extractItem links i item with
      | none => rw [extractLoop_take links rest (i + 1)]
      | some p => rw [extractLoop_take links rest (i + 1)]
    · have h : links.length - i = 0 := by omega
      rw [h, List.take_zero]
      rw [extractLoop_nil_of_ge (by omega) (item :: rest)]
      rfl

theorem extractItem_slug {links : List String} {i : Nat} {item : Item} {p : Product}
    (h : extractItem links i item = some p) : p.slug = some (generate_slug p.name) := by
  unfold extractItem at h
  cases him : item.img with
  | none => rw [him] at h; cases h
  | some im =>
    rw [him] at h
    dsimp only at h
    by_cases hi : i < links.length
    · rw [if_pos hi] at h
      by_cases hc : pyStripStr (im.src.getD "") ≠ "" ∧
          strHasHttp (pyStripStr (im.src.getD "")) = false
      · rw [if_pos hc] at h
        by_cases h0 : urljoinBase (pyStripStr (im.src.getD "")) = ""
        · rw [if_pos h0] at h; cases h
        · rw [if_neg h0] at h; cases h; rfl
      · rw [if_neg hc] at h
        by_cases h0 : pyStripStr (im.src.getD "") = ""
        · rw [if_pos h0] at h; cases h
        · rw [if_neg h0] at h; cases h; rfl
    · rw [if_neg hi] at h; cases h

theorem extractLoop_slug {links : List String} {p : Product} :
    ∀ {items : List Item} {i : Nat}, p ∈ extractLoop links i items →
      p.slug = some (generate_slug p.name)
  | [], _, h => by cases h
  | item :: rest, i, h => by
    unfold extractLoop at h
    cases he : extractItem links i item with
    | none =>
      rw [he] at h
      exact extractLoop_slug h
    | some q =>
      rw [he] at h
      rcases List.mem_cons.mp h with h' | h'
      · subst h'
        exact extractItem_slug he
      · exact extractLoop_slug h'

/-! ### Name comparison: strip and lower commute -/

theorem pySpace_comp_pyLowerChar : pySpace ∘ pyLowerChar = pySpace :=
  funext pySpace_pyLowerChar

theorem pyStripList_map_lower (l : List Char) :
    pyStripList (l.map pyLowerChar) = (pyStripList l).map pyLowerChar := by
  unfold pyStripList dropTrailingWhile
  rw [List.dropWhile_map, pySpace_comp_pyLowerChar, ← List.map_reverse,
    List.dropWhile_map, pySpace_comp_pyLowerChar, ← List.map_reverse]

theorem strip_lower_comm (s : String) :
    pyStripStr (pyLowerStr s) = pyLowerStr (pyStripStr s) := by
  unfold pyStripStr pyLowerStr
  rw [data_mk, data_mk, pyStripList_map_lower]

theorem code_pred_eq_nameMatches (q : String) :
    (fun w : Product => (decide (pyStripStr (pyLowerStr w.name) = pyLowerStr (pyStripStr q)))) =
      fun w : Product => nameMatches w.name q := by
  funext w
  unfold nameMatches
  rw [strip_lower_comm]

/-! ### Persistence round trip -/

theorem productParse_productDump (p : Product) : productParse (productDump p) = some p := by
  cases p with
  | mk n i l s =>
    cases s with
    | none => rfl
    | some sl => rfl

theorem productDump_no_slug {p : Product} (h : p.slug = none) :
    (productDump p).lookup "slug" = none := by
  cases p with
  | mk n i l s =>
    cases s with
    | none => rfl
    | some sl => cases h

theorem parseAll_dump : ∀ ps : List Product,
    parseAll (ps.map (fun p => Json.obj (productDump p))) = some ps
  | [] => rfl
  | p :: ps => by
    rw [List.map_cons]
    unfold parseAll
    dsimp only
    rw [productParse_productDump, parseAll_dump ps]

theorem detailsParse_detailsDump (ps : List Product) :
    detailsParse (detailsDump ps) = some ps := by
  unfold detailsParse detailsDump
  rw [show ([("products", Json.arr (ps.map (fun p => Json.obj (productDump p))))].lookup
      "products") = some (Json.arr (ps.map (fun p => Json.obj (productDump p)))) from rfl]
  exact parseAll_dump ps

/-! ## The claims -/

/-- Claim C1: for every item of the watch container whose positional index is
within range of the links list, extraction builds the record as `specRecord`
states it: the label text is the image's `alt` attribute, defaulting to
`"Unknown Watch"` when absent, trimmed; the image source is trimmed; a source
without an absolute-URL scheme is resolved against the fixed base origin; an
item whose resolved URL is empty is skipped; otherwise the `Product` carries
the label, the resolved URL, the trimmed positional link and the generated
slug. The whole output is exactly the in-order sequence of these records. -/
theorem extract_builds_records_per_spec (items : List Item) (links : List String) :
    extract_watch_data (some items) links =
      (withIdx 0 items).filterMap (fun x => specRecord links x.1 x.2) :=
  extractLoop_eq_filterMap links items 0

/-- Claim C2: extraction of the embedded sample document with the eight
embedded links yields exactly eight products, in document order, the first
named `"Hublot MP-10 Tourbillon"` with slug `"hublot-mp-10-tourbillon"`. -/
theorem sample_extraction_yields_eight :
    (extract_watch_data sampleDoc watch_links).length = 8 ∧
    (extract_watch_data sampleDoc watch_links).map Product.name =
      ["Hublot MP-10 Tourbillon", "Hublot Spirit Of Big Bang Full Magic Gold",
       "Movado Alta Super Sub Sea Automatic", "Swatch Obsidian Ink", "Swatch Caramellissima",
       "Swatch Random Ghost", "Swatch Up In Smoke", "Swatch Cobalt Lagoon"] ∧
    (extract_watch_data sampleDoc watch_links).head? = some
      { name := "Hublot MP-10 Tourbillon",
        image_url :=
          "https://dj5e08oeu5ym4.cloudfront.net/thumb/c2a36185-19be-48dc-80ca-a40cd1e930ce.jpg",
        link := "https://www.shopar.ai/collection/watches?product=66618cf59d3fb1edda45d3ba&mode=3d",
        slug := some "hublot-mp-10-tourbillon" } :=
  ⟨by decide, by decide, by decide⟩

/-- Claim C3: `generate_slug` computes exactly what the spec describes:
lowercase, remove every character that is not alphanumeric, underscore,
whitespace or hyphen, collapse whitespace/hyphen runs to single hyphens, and
strip leading and trailing hyphens; the empty string yields the empty
string, the function is total (a Lean function of type `String → String`),
and `generate_slug "Hublot Mp-10 Tourbillon" = "hublot-mp-10-tourbillon"`. -/
theorem generate_slug_matches_spec (s : String) :
    generate_slug s = generate_slug_spec s ∧
    generate_slug "" = "" ∧
    generate_slug "Hublot Mp-10 Tourbillon" = "hublot-mp-10-tourbillon" := by
  refine ⟨?_, rfl, by decide⟩
  unfold generate_slug generate_slug_spec
  by_cases h : s.data = []
  · rw [if_pos h, h]
    rfl
  · rw [if_neg h, slugList_eq_slugSpecList]

/-- Claim C4: extraction never raises — it is a total function of the
observed document — and a document without the carousel container yields the
empty sequence. -/
theorem extract_missing_container_empty (links : List String) :
    extract_watch_data none links = [] := rfl

/-- Claim C5: items whose positional index is beyond the link count
contribute nothing — the output over all items equals the output over the
first `links.length` items — so every in-range item is still processed and
extraction does not terminate early on a count mismatch. -/
theorem extract_skips_out_of_range_items (items : List Item) (links : List String) :
    extract_watch_data (some items) links =
      extract_watch_data (some (items.take links.length)) links := by
  show extractLoop links 0 items = extractLoop links 0 (items.take links.length)
  have h := extractLoop_take links items 0
  simpa using h

/-- Claim C6: find-by-name runs extraction and compares the supplied name
with each extracted product's name by case-insensitive, whitespace-trimmed
equality, in extraction order, returning the first match; empty extraction
gives a 500, and no match gives a 404 whose detail names the requested
value. -/
theorem find_by_name_behaviour (watches : List Product) (q : String) :
    get_watch_by_name q = get_watch_by_name_core (extract_watch_data sampleDoc watch_links) q ∧
    (watches = [] →
      get_watch_by_name_core watches q = Resp.err 500 "Failed to process watch collection") ∧
    (watches ≠ [] →
      get_watch_by_name_core watches q =
        match watches.find? (fun w => nameMatches w.name q) with
        | some w => Resp.ok w
        | none => Resp.err 404 ("Watch '" ++ q ++ "' not found")) := by
  refine ⟨rfl, ?_, ?_⟩
  · intro h
    unfold get_watch_by_name_core
    rw [if_pos h]
  · intro h
    unfold get_watch_by_name_core
    rw [if_neg h, code_pred_eq_nameMatches]

/-- Concrete instance of the find-by-name behaviour: the empty collection
answers 500, and a differently-cased, padded query returns the matching
sample product. -/
theorem find_by_name_behaviour_witness :
    get_watch_by_name_core [] "x" = Resp.err 500 "Failed to process watch collection" ∧
    get_watch_by_name_core (extract_watch_data sampleDoc watch_links) " SWATCH obsidian INK " =
      Resp.ok
        { name := "Swatch Obsidian Ink",
          image_url :=
            "https://dj5e08oeu5ym4.cloudfront.net/thumb/12df7df7-fecd-412e-bea5-02e92c312408.webp",
          link :=
            "https://www.shopar.ai/collection/watches?product=66ba01a114de953c80003cfc&mode=3d",
          slug := some "swatch-obsidian-ink" } := by
  constructor
  · exact (find_by_name_behaviour [] "x").2.1 rfl
  · rw [(find_by_name_behaviour (extract_watch_data sampleDoc watch_links)
      " SWATCH obsidian INK ").2.2 (by decide)]
    decide

/-- Claim C7: the slug generator is deterministic — equal inputs give equal
outputs — and idempotent: applying it twice equals applying it once. -/
theorem generate_slug_idempotent (s t : String) :
    (s = t → generate_slug s = generate_slug t) ∧
    generate_slug (generate_slug s) = generate_slug s :=
  ⟨fun h => by rw [h], generate_slug_idem_str s⟩

/-- Concrete instance of determinism and idempotence of the slug
generator. -/
theorem generate_slug_idempotent_witness :
    generate_slug "Hublot MP-10 Tourbillon" = generate_slug "Hublot MP-10 Tourbillon" ∧
    generate_slug (generate_slug "Hublot MP-10 Tourbillon") =
      generate_slug "Hublot MP-10 Tourbillon" :=
  ⟨(generate_slug_idempotent "Hublot MP-10 Tourbillon" "Hublot MP-10 Tourbillon").1 rfl,
   (generate_slug_idempotent "Hublot MP-10 Tourbillon" "Hublot MP-10 Tourbillon").2⟩

/-- Claim C8 fails on the code: the spec says every remaining whitespace
character is replaced by an underscore, but `str.replace(' ', '_')` touches
only the space character. A name containing a tab keeps the tab in the
derived filename. -/
theorem safe_filename_whitespace_counterexample :
    generate_safe_filename "a\tb" "watch" = "data/a\tb_watch.json" ∧
    safe_filename_spec "a\tb" "watch" = "data/a_b_watch.json" ∧
    generate_safe_filename "a\tb" "watch" ≠ safe_filename_spec "a\tb" "watch" :=
  ⟨by decide, by decide, by decide⟩

/-- Claim C8 as amended: the filename derivation strips every character that
is not alphanumeric, underscore, whitespace, or hyphen, replaces remaining
space characters (U+0020, not all whitespace) with underscores, lowercases
the result, and composes `data/<processed-name>_<category>.json`. -/
theorem safe_filename_follows_amended_spec (name category : String) :
    generate_safe_filename name category = safe_filename_amended name category := by
  unfold generate_safe_filename safe_filename_amended
  rw [List.map_map]
  rfl

/-- Claim C9: the serialized JSON of a product omits an absent `slug` rather
than writing a null, and re-parsing a written product or collection
reconstructs the in-memory value exactly. -/
theorem save_roundtrip (p : Product) (ps : List Product) :
    productParse (productDump p) = some p ∧
    (p.slug = none → (productDump p).lookup "slug" = none) ∧
    detailsParse (detailsDump ps) = some ps :=
  ⟨productParse_productDump p, fun h => productDump_no_slug h, detailsParse_detailsDump ps⟩

/-- Concrete instance of the save round trip for a slug-less product. -/
theorem save_roundtrip_witness :
    (Product.mk "Swatch Random Ghost"
      "https://dj5e08oeu5ym4.cloudfront.net/thumb/d670348a-0aee-4916-b011-a8943b1d7496.jpg"
      "https://www.shopar.ai/collection/watches?product=67129023c904b2a2777efe9d&mode=3d"
      none).slug = none ∧
    (productDump (Product.mk "Swatch Random Ghost"
      "https://dj5e08oeu5ym4.cloudfront.net/thumb/d670348a-0aee-4916-b011-a8943b1d7496.jpg"
      "https://www.shopar.ai/collection/watches?product=67129023c904b2a2777efe9d&mode=3d"
      none)).lookup "slug" = none :=
  ⟨rfl,
   (save_roundtrip (Product.mk "Swatch Random Ghost"
      "https://dj5e08oeu5ym4.cloudfront.net/thumb/d670348a-0aee-4916-b011-a8943b1d7496.jpg"
      "https://www.shopar.ai/collection/watches?product=67129023c904b2a2777efe9d&mode=3d"
      none) []).2.1 rfl⟩

/-- Claim C10: every record extraction returns carries a present slug equal
to `generate_slug` of its name, although the data model declares `slug`
optional. -/
theorem extract_slug_invariant (doc : Doc) (links : List String) (p : Product)
    (h : p ∈ extract_watch_data doc links) : p.slug = some (generate_slug p.name) := by
  cases doc with
  | none => cases h
  | some items => exact extractLoop_slug h

/-- Concrete instance of the slug invariant on the first sample product. -/
theorem extract_slug_invariant_witness :
    Product.mk "Hublot MP-10 Tourbillon"
        "https://dj5e08oeu5ym4.cloudfront.net/thumb/c2a36185-19be-48dc-80ca-a40cd1e930ce.jpg"
        "https://www.shopar.ai/collection/watches?product=66618cf59d3fb1edda45d3ba&mode=3d"
        (some "hublot-mp-10-tourbillon") ∈
      extract_watch_data sampleDoc watch_links ∧
    (Product.mk "Hublot MP-10 Tourbillon"
        "https://dj5e08oeu5ym4.cloudfront.net/thumb/c2a36185-19be-48dc-80ca-a40cd1e930ce.jpg"
        "https://www.shopar.ai/collection/watches?product=66618cf59d3fb1edda45d3ba&mode=3d"
        (some "hublot-mp-10-tourbillon")).slug =
      some (generate_slug (Product.mk "Hublot MP-10 Tourbillon"
        "https://dj5e08oeu5ym4.cloudfront.net/thumb/c2a36185-19be-48dc-80ca-a40cd1e930ce.jpg"
        "https://www.shopar.ai/collection/watches?product=66618cf59d3fb1edda45d3ba&mode=3d"
        (some "hublot-mp-10-tourbillon")).name) := by
  constructor
  · decide
  · exact extract_slug_invariant sampleDoc watch_links _ (by decide)

end Watches
